import Mathlib

/-!
Verification of the fallen-tweaks browser extension core against its
specification.  The development shallowly embeds the pure data manipulation
of the source files: the storage layer (storage.ts, constants.ts), the
module lifecycle manager (module-manager.ts), the card preference toggles
(card-favourites.ts), the pinned-quality reorder logic
(quality-favourites.ts) and the bazaar aggregation and formatting helpers
(bazaar-total.ts).  JavaScript numbers are modelled as exact rationals and
integers; JavaScript records as association lists or as functions into
Option; thrown exceptions as explicit flags on the module descriptors.
-/

namespace FallenTweaks

/-! ### constants.ts -/

/-- Descriptor of one feature module, mirroring the ModuleInfo interface. -/
structure ModuleInfo where
  id : String
  name : String
  description : String
deriving DecidableEq

/-- Central registry of all available feature modules (MODULE_REGISTRY). -/
def MODULE_REGISTRY : List ModuleInfo :=
  [ { id := "bazaar-total",
      name := "Bazaar Total Value",
      description := "Shows the total value of your items when selling at the Bazaar." },
    { id := "card-favourites",
      name := "Opportunity Card Favourites",
      description := "Mark opportunity cards as favourites or ones to avoid. Favourites are highlighted; avoided cards are dimmed." },
    { id := "quality-favourites",
      name := "Quality Favourites",
      description := "Pin your favourite qualities to the top of each category list for quick access." } ]

/-! ### storage.ts -/

/-- A persisted card preference value, favourite or avoid. -/
inductive CardPref where
  | favourite : CardPref
  | avoid : CardPref
deriving DecidableEq

/-- The chrome.storage.sync content relevant to the StorageSchema: each of
the three keys is either unset (none) or holds a persisted value.  Record
values are modelled as association lists. -/
structure Storage where
  moduleStates : Option (List (String × Bool))
  cardPreferences : Option (List (String × CardPref))
  favouriteQualities : Option (List String)
deriving DecidableEq

/-- Embedding of initializeStorage: read the moduleStates key; when it is
unset, write all three keys, moduleStates mapping every registered module
id to false and the other two keys set to their empty defaults.  When
moduleStates is set, do nothing. -/
def initializeStorage (s : Storage) : Storage :=
  match s.moduleStates with
  | some _ => s
  | none =>
      { moduleStates := some (MODULE_REGISTRY.map (fun m => (m.id, false)))
        cardPreferences := some []
        favouriteQualities := some [] }

/-- Embedding of getAllModuleStates: the fetched moduleStates value (the
stored record, or the empty default when the key is unset) is projected
onto the registry, each registered id mapping to its stored boolean or
false when absent. -/
def getAllModuleStates (stored : Option (List (String × Bool))) : List (String × Bool) :=
  let states := stored.getD []
  MODULE_REGISTRY.map (fun m => (m.id, (states.lookup m.id).getD false))

/-! ### module-manager.ts -/

/-- A registered feature module as the manager sees it: an id together with
the observable behaviour of its enable and disable routines, namely
whether each one throws when invoked. -/
structure FeatureModule where
  id : String
  enableThrows : Bool
  disableThrows : Bool
deriving DecidableEq

/-- Observable state of the ModuleManager: the activeModules set (as a
list), the log of invocations of module enable and disable routines, and
the error messages logged by the catch blocks. -/
structure ManagerState where
  activeModules : List String
  enableCalls : List String
  disableCalls : List String
  errors : List String
deriving DecidableEq

/-- Embedding of ModuleManager.enableModule: return early when the id is
already active; otherwise invoke the enable routine; on success add the id
to the active set, on a thrown error log the failure and leave the active
set unchanged. -/
def enableModule (m : FeatureModule) (s : ManagerState) : ManagerState :=
  if m.id ∈ s.activeModules then s
  else
    let s1 := { s with enableCalls := s.enableCalls ++ [m.id] }
    if m.enableThrows then
      { s1 with errors := s1.errors ++ ["Failed to enable " ++ m.id] }
    else
      { s1 with activeModules := s1.activeModules ++ [m.id] }

/-- Embedding of ModuleManager.disableModule: return early when the id is
not active; otherwise invoke the disable routine; on success delete the id
from the active set; on a thrown error log the failure, the delete that
follows the call in the try block never running. -/
def disableModule (m : FeatureModule) (s : ManagerState) : ManagerState :=
  if m.id ∈ s.activeModules then
    let s1 := { s with disableCalls := s.disableCalls ++ [m.id] }
    if m.disableThrows then
      { s1 with errors := s1.errors ++ ["Failed to disable " ++ m.id] }
    else
      { s1 with activeModules := s1.activeModules.filter (fun x => x != m.id) }
  else s

/-- One step of the storage change listener in ModuleManager.initialize:
for a single registered module, compare its old and new enabled state,
defaulting both to false, and enable on a false to true transition,
disable on a true to false transition. -/
def changeStep (oldStates newStates : List (String × Bool)) (s : ManagerState)
    (m : FeatureModule) : ManagerState :=
  let wasEnabled := (oldStates.lookup m.id).getD false
  let isEnabled := (newStates.lookup m.id).getD false
  if isEnabled && !wasEnabled then enableModule m s
  else if !isEnabled && wasEnabled then disableModule m s
  else s

/-- The storage change listener body: fold changeStep over every registered
module in order. -/
def handleChange (oldStates newStates : List (String × Bool))
    (mods : List FeatureModule) (s : ManagerState) : ManagerState :=
  mods.foldl (changeStep oldStates newStates) s

/-! ### card-favourites.ts -/

/-- Embedding of setCardPref restricted to the persisted preference map:
a record keyed by card id is a function from ids to an optional
preference; passing none deletes the entry, passing a value stores it. -/
def setCardPref (prefs : String → Option CardPref) (cardId : String)
    (pref : Option CardPref) : String → Option CardPref :=
  fun id => if id = cardId then pref else prefs id

/-- Embedding of toggleCardPref: read the current preference of the card;
when it equals the clicked tag, clear it, otherwise set the clicked tag. -/
def toggleCardPref (prefs : String → Option CardPref) (cardId : String)
    (pref : CardPref) : String → Option CardPref :=
  setCardPref prefs cardId (if prefs cardId = some pref then none else some pref)

/-! ### quality-favourites.ts -/

/-- Embedding of reorderFavourite: remove the moved id from the list, look
up the index of the target id in the filtered list, and give back the
input unchanged when the target is absent, the JavaScript indexOf
returning -1 exactly in that case; otherwise insert the moved id at the
target index or just after it. -/
def reorderFavourite (favouriteIds : List String) (movedId targetId : String)
    (insertBefore : Bool) : List String :=
  let filtered := favouriteIds.filter (fun id => id != movedId)
  if targetId ∈ filtered then
    let targetIndex := filtered.indexOf targetId
    let insertIndex := if insertBefore then targetIndex else targetIndex + 1
    filtered.insertIdx insertIndex movedId
  else favouriteIds

/-- Embedding of the drop listener installed by buildFavouritesGroup: when
no drag is in progress or the dragged id equals the id of the element
receiving the drop, return without touching the list; otherwise delegate
to reorderFavourite. -/
def dropOnFavourite (draggedId : Option String) (qualityId : String)
    (insertBefore : Bool) (favs : List String) : List String :=
  match draggedId with
  | none => favs
  | some d => if d = qualityId then favs else reorderFavourite favs d qualityId insertBefore

/-! ### bazaar-total.ts, parsing -/

/-- Value of a list of decimal digit characters, most significant first. -/
def digitsToNat (ds : List Char) : Nat :=
  ds.foldl (fun a c => a * 10 + (c.toNat - 48)) 0

/-- Removal of every comma from a string, the replace of all commas. -/
def stripCommas (s : String) : String :=
  ⟨s.toList.filter (fun c => c != ',')⟩

/-- JavaScript String.prototype.trim: drop whitespace from both ends. -/
def jsTrim (s : String) : String :=
  ⟨((s.toList.dropWhile (fun c => c.isWhitespace)).reverse.dropWhile
      (fun c => c.isWhitespace)).reverse⟩

/-- JavaScript parseInt with radix 10: skip leading whitespace, read an
optional sign and then the longest run of decimal digits; when that run is
empty the result is NaN, modelled as none. -/
def parseIntTen (s : String) : Option Int :=
  let cs := s.toList.dropWhile (fun c => c.isWhitespace)
  match cs with
  | '-' :: rest =>
      let ds := rest.takeWhile (fun c => c.isDigit)
      if ds.isEmpty then none else some (-(digitsToNat ds : Int))
  | '+' :: rest =>
      let ds := rest.takeWhile (fun c => c.isDigit)
      if ds.isEmpty then none else some (digitsToNat ds : Int)
  | rest =>
      let ds := rest.takeWhile (fun c => c.isDigit)
      if ds.isEmpty then none else some (digitsToNat ds : Int)

/-- Embedding of parseQuantity: strip commas, trim, parse as a radix 10
integer, and turn a NaN result into 0. -/
def parseQuantity (text : String) : Int :=
  let cleaned := jsTrim (stripCommas text)
  (parseIntTen cleaned).getD 0

/-- JavaScript parseFloat on finite decimal literals: skip leading
whitespace, read an optional sign, an integer digit run, an optional dot
with a fraction digit run, and an optional exponent; when both digit runs
are empty the result is NaN, modelled as none.  The value is computed as
an exact rational. -/
def parseFloatJs (s : String) : Option ℚ :=
  let cs := s.toList.dropWhile (fun c => c.isWhitespace)
  let signRest : Bool × List Char :=
    match cs with
    | '-' :: r => (true, r)
    | '+' :: r => (false, r)
    | r => (false, r)
  let neg := signRest.1
  let rest := signRest.2
  let intDs := rest.takeWhile (fun c => c.isDigit)
  let rest2 := rest.drop intDs.length
  let fracRest : List Char × List Char :=
    match rest2 with
    | '.' :: r => (r.takeWhile (fun c => c.isDigit), r.drop (r.takeWhile (fun c => c.isDigit)).length)
    | _ => ([], rest2)
  let fracDs := fracRest.1
  let rest3 := fracRest.2
  if intDs.isEmpty && fracDs.isEmpty then none
  else
    let mant : ℚ := (digitsToNat intDs : ℚ) + (digitsToNat fracDs : ℚ) / (10 : ℚ) ^ fracDs.length
    let e : Int :=
      match rest3 with
      | c :: r =>
          if c = 'e' ∨ c = 'E' then
            match r with
            | '-' :: r2 =>
                let eds := r2.takeWhile (fun x => x.isDigit)
                if eds.isEmpty then 0 else -(digitsToNat eds : Int)
            | '+' :: r2 =>
                let eds := r2.takeWhile (fun x => x.isDigit)
                if eds.isEmpty then 0 else (digitsToNat eds : Int)
            | r2 =>
                let eds := r2.takeWhile (fun x => x.isDigit)
                if eds.isEmpty then 0 else (digitsToNat eds : Int)
          else 0
      | [] => 0
    let v := mant * (10 : ℚ) ^ e
    some (if neg then -v else v)

/-- Embedding of parsePrice: trim, parse as a decimal, and turn a NaN
result into 0. -/
def parsePrice (text : String) : ℚ :=
  (parseFloatJs (jsTrim text)).getD 0

/-- Whether a string contains a numeric head: after optional leading
whitespace and an optional sign there is at least one decimal digit. -/
def hasLeadingNumber (s : String) : Bool :=
  match s.toList.dropWhile (fun c => c.isWhitespace) with
  | '-' :: rest => !(rest.takeWhile (fun c => c.isDigit)).isEmpty
  | '+' :: rest => !(rest.takeWhile (fun c => c.isDigit)).isEmpty
  | rest => !(rest.takeWhile (fun c => c.isDigit)).isEmpty

/-! ### bazaar-total.ts, aggregation and formatting -/

/-- One sell line: a quantity and a unit price.  The fields hold the
exact rational values of the JavaScript numbers stored in the item
objects; every double is such a rational. -/
structure Item where
  quantity : ℚ
  price : ℚ
deriving DecidableEq

/-- Integer power of two as a rational, for scaling significands. -/
def pow2 (e : ℤ) : ℚ :=
  if 0 ≤ e then ((2 ^ e.toNat : ℕ) : ℚ) else 1 / ((2 ^ (-e).toNat : ℕ) : ℚ)

/-- Fuel driven binary length: number of binary digits of n, with the
fuel argument bounding the recursion depth structurally. -/
def bitLenAux : Nat → Nat → Nat
  | 0, _ => 0
  | fuel + 1, n => if n = 0 then 0 else bitLenAux fuel (n / 2) + 1

/-- Number of binary digits of a natural number; 0 for 0.  The fuel n
suffices since the length of n is at most n for positive n. -/
def bitLen (n : Nat) : Nat := bitLenAux n n

/-- Whether the positive rational n / d is at least 2 to the e, decided
by integer cross multiplication. -/
def gePow2 (n d : Nat) (e : ℤ) : Prop :=
  if 0 ≤ e then d * 2 ^ e.toNat ≤ n else d ≤ n * 2 ^ (-e).toNat

instance (n d : Nat) (e : ℤ) : Decidable (gePow2 n d e) := by
  unfold gePow2
  infer_instance

/-- Floor of the base two logarithm of the positive rational n / d.  The
bit lengths give a candidate that is off by at most one, corrected by one
comparison. -/
def floorLog2 (n d : Nat) : ℤ :=
  let e0 : ℤ := (bitLen n : ℤ) - (bitLen d : ℤ)
  if gePow2 n d e0 then e0 else e0 - 1

/-- Rounding of the positive rational n / d to 53 significant bits, round
to nearest with ties to even: the significand in the interval from 2 to
the 52 up to 2 to the 53, and the exponent, computed with integer
division and remainder. -/
def flScaled (n d : Nat) : Nat × ℤ :=
  let e : ℤ := floorLog2 n d - 52
  let mNum : Nat := if 0 ≤ e then n else n * 2 ^ (-e).toNat
  let mDen : Nat := if 0 ≤ e then d * 2 ^ e.toNat else d
  let q := mNum / mDen
  let r := mNum % mDen
  let q' := if 2 * r < mDen then q
    else if mDen < 2 * r then q + 1
    else if q % 2 = 0 then q else q + 1
  (q', e)

/-- IEEE 754 binary64 rounding of an exact rational: round to nearest,
ties to even, at 53 significant bits.  This models the rounding JavaScript
applies after every arithmetic operation, for values in the normal range
of the format; subnormal rounding and overflow to infinity lie outside
the range exercised here and are not modelled. -/
def fl (x : ℚ) : ℚ :=
  if x = 0 then 0
  else
    let p := flScaled x.num.natAbs x.den
    let mag : ℚ := (p.1 : ℚ) * pow2 p.2
    if x < 0 then -mag else mag

/-- Embedding of computeTotal: reduce over the item list, adding quantity
times price to the accumulator, starting from 0.  The source computes on
JavaScript doubles, so the multiplication and the addition each round to
binary64: the embedding applies fl after each operation. -/
def computeTotal (items : List Item) : ℚ :=
  items.foldl (fun sum item => fl (sum + fl (item.quantity * item.price))) 0

/-- The idealized exact arithmetic total, following the words of the
specification: the sum over the sequence of quantity times price, with no
intermediate rounding.  Stated beside computeTotal to compare the
idealization with the double computation. -/
def computeTotalExact (items : List Item) : ℚ :=
  items.foldl (fun sum item => sum + item.quantity * item.price) 0

/-- JavaScript Math.round on exact rationals: round to the nearest
integer, ties toward positive infinity. -/
def jsRound (x : ℚ) : ℤ := ⌊x + 1 / 2⌋

/-- Comma grouping on a reversed digit list: after every third digit from
the least significant end, insert a comma, exactly what the grouping
regular expression of formatCurrency does to the integer part. -/
def groupRev : List Char → List Char
  | [] => []
  | [a] => [a]
  | [a, b] => [a, b]
  | [a, b, c] => [a, b, c]
  | a :: b :: c :: rest => a :: b :: c :: ',' :: groupRev rest

/-- Decimal rendering of a natural number with thousands separators. -/
def groupDigits (n : Nat) : String :=
  ⟨(groupRev (Nat.repr n).toList.reverse).reverse⟩

/-- Two digit zero padded rendering of a value below 100, the fraction
part produced by toFixed 2. -/
def pad2 (k : Nat) : String :=
  if k < 10 then "0" ++ Nat.repr k else Nat.repr k

/-- Embedding of formatCurrency: for the Echoes currency, round to a
whole number of cents half up, render with exactly two decimals and
thousands separators on the integer part; for any other currency, round
to a whole number half up and render it with thousands separators. -/
def formatCurrency (total : ℚ) (currency : String) : String :=
  if currency = "Echoes" then
    let cents := jsRound (total * 100)
    let a := cents.natAbs
    (if cents < 0 then "-" else "") ++ groupDigits (a / 100) ++ "." ++ pad2 (a % 100)
      ++ " Echoes"
  else
    let r := jsRound total
    (if r < 0 then "-" else "") ++ groupDigits r.natAbs ++ " " ++ currency

/-- Rendering of a nonnegative whole number of cents as an Echoes amount,
used to state the rounding property of formatCurrency. -/
def echoesOfCents (c : Nat) : String :=
  groupDigits (c / 100) ++ "." ++ pad2 (c % 100) ++ " Echoes"

/-! ### Shared helper lemmas -/

/-- Inserting an element at an index within bounds is a permutation of
pushing it on the front. -/
theorem insertIdx_perm {α : Type} (a : α) :
    ∀ (n : ℕ) (l : List α), n ≤ l.length → (l.insertIdx n a).Perm (a :: l)
  | 0, l, _ => by simp [List.insertIdx_zero]
  | n + 1, [], h => by simp at h
  | n + 1, x :: l, h => by
    rw [List.insertIdx_succ_cons]
    exact ((insertIdx_perm a n l (by simpa using h)).cons x).trans (List.Perm.swap a x l)

/-- Under the no-duplicates invariant of the pinned list, reorderFavourite
permutes the list whenever the moved and the target id both occur in it
and differ. -/
theorem reorder_perm (favs : List String) (movedId targetId : String) (b : Bool)
    (hnd : favs.Nodup) (hm : movedId ∈ favs) (ht : targetId ∈ favs)
    (hne : targetId ≠ movedId) :
    (reorderFavourite favs movedId targetId b).Perm favs := by
  have hfe : favs.filter (fun id => id != movedId) = favs.erase movedId :=
    (hnd.erase_eq_filter movedId).symm
  have ht' : targetId ∈ favs.filter (fun id => id != movedId) := by
    rw [hfe]
    exact (List.mem_erase_of_ne hne).mpr ht
  have hidx : (favs.filter (fun id => id != movedId)).indexOf targetId <
      (favs.filter (fun id => id != movedId)).length :=
    List.indexOf_lt_length.mpr ht'
  rw [reorderFavourite]
  simp only [if_pos ht']
  have hle : (if b then (favs.filter (fun id => id != movedId)).indexOf targetId
      else (favs.filter (fun id => id != movedId)).indexOf targetId + 1) ≤
      (favs.filter (fun id => id != movedId)).length := by
    cases b <;> simp [Nat.succ_le_of_lt hidx, Nat.le_of_lt hidx]
  refine (insertIdx_perm movedId _ _ hle).trans ?_
  rw [hfe]
  exact (List.perm_cons_erase hm).symm

/-- The exact arithmetic total is the sum of the per line products. -/
theorem computeTotalExact_eq_sum (items : List Item) :
    computeTotalExact items = (items.map fun i => i.quantity * i.price).sum := by
  have aux : ∀ (l : List Item) (a : ℚ),
      l.foldl (fun sum item => sum + item.quantity * item.price) a =
        a + (l.map fun i => i.quantity * i.price).sum := by
    intro l
    induction l with
    | nil => intro a; simp
    | cons x xs ih => intro a; simp [ih]; ring
  simpa [computeTotalExact] using aux items 0

/-- Binary64 rounding fixes zero. -/
theorem fl_zero : fl 0 = 0 := by
  simp [fl]

/-- Binary64 rounding of 1. -/
theorem fl_one : fl (1 : ℚ) = 1 := by
  have h0 : ¬((1 : ℚ) = 0) := by norm_num
  have h1 : ¬((1 : ℚ) < 0) := by norm_num
  have h2 : flScaled (1 : ℚ).num.natAbs (1 : ℚ).den = (4503599627370496, -52) := by decide
  simp only [fl, if_neg h0, h2, if_neg h1]
  norm_num [pow2]
  rw [show Int.toNat 52 = 52 from rfl]
  norm_num

/-- Binary64 rounding of 2. -/
theorem fl_two : fl (2 : ℚ) = 2 := by
  have h0 : ¬((2 : ℚ) = 0) := by norm_num
  have h1 : ¬((2 : ℚ) < 0) := by norm_num
  have h2 : flScaled (2 : ℚ).num.natAbs (2 : ℚ).den = (4503599627370496, -51) := by decide
  simp only [fl, if_neg h0, h2, if_neg h1]
  norm_num [pow2]
  rw [show Int.toNat 51 = 51 from rfl]
  norm_num

/-- Binary64 rounding fixes 2 to the 53, the largest power of two whose
neighbours at distance one are no longer representable. -/
theorem fl_pow53 : fl (9007199254740992 : ℚ) = 9007199254740992 := by
  have h0 : ¬((9007199254740992 : ℚ) = 0) := by norm_num
  have h1 : ¬((9007199254740992 : ℚ) < 0) := by norm_num
  have h2 : flScaled (9007199254740992 : ℚ).num.natAbs (9007199254740992 : ℚ).den =
      (4503599627370496, 1) := by decide
  simp only [fl, if_neg h0, h2, if_neg h1]
  norm_num [pow2]

/-- Binary64 rounding of 2 to the 53 plus 1: the value sits exactly
between the representable neighbours 2 to the 53 and 2 to the 53 plus 2,
and the tie goes to the even significand, rounding down. -/
theorem fl_pow53_add_one : fl (9007199254740993 : ℚ) = 9007199254740992 := by
  have h0 : ¬((9007199254740993 : ℚ) = 0) := by norm_num
  have h1 : ¬((9007199254740993 : ℚ) < 0) := by norm_num
  have h2 : flScaled (9007199254740993 : ℚ).num.natAbs (9007199254740993 : ℚ).den =
      (4503599627370496, 1) := by decide
  simp only [fl, if_neg h0, h2, if_neg h1]
  norm_num [pow2]

/-- Binary64 rounding fixes 2 to the 53 plus 2, which is representable
with significand 2 to the 52 plus 1. -/
theorem fl_pow53_add_two : fl (9007199254740994 : ℚ) = 9007199254740994 := by
  have h0 : ¬((9007199254740994 : ℚ) = 0) := by norm_num
  have h1 : ¬((9007199254740994 : ℚ) < 0) := by norm_num
  have h2 : flScaled (9007199254740994 : ℚ).num.natAbs (9007199254740994 : ℚ).den =
      (4503599627370497, 1) := by decide
  simp only [fl, if_neg h0, h2, if_neg h1]
  norm_num [pow2]

/-- An item of quantity 1 priced at 2 to the 53, a representable double. -/
def itemBig : Item := { quantity := 1, price := 9007199254740992 }

/-- An item of quantity 1 priced at 1. -/
def itemOne : Item := { quantity := 1, price := 1 }

/-- The radix 10 integer parse fails exactly on strings without a numeric
head. -/
theorem parseIntTen_eq_none_of_no_number (t : String)
    (h : hasLeadingNumber t = false) : parseIntTen t = none := by
  simp only [parseIntTen]
  unfold hasLeadingNumber at h
  split
  · rename_i rest heq
    rw [heq] at h
    simp_all
  · rename_i rest heq
    rw [heq] at h
    simp_all
  · rename_i hn1 hn2
    split at h
    · rename_i rest heq
      exact absurd heq (fun hc => hn1 rest hc)
    · rename_i rest heq
      exact absurd heq (fun hc => hn2 rest hc)
    · simp_all

/-- An in memory card preference store holding a single avoided card,
used below as a concrete input. -/
def cPrefs0 : String → Option CardPref :=
  fun id => if id = "c1" then some CardPref.avoid else none

/-! ### Claims -/

/-- C1, counterexample: a unit whose deactivation routine throws is NOT
removed from the active set; the delete that follows the call inside the
try block never runs, so the active set still holds the id afterwards,
even though the error was logged. -/
theorem disableModule_throw_keeps_active_cex :
    (disableModule { id := "quality-favourites", enableThrows := false, disableThrows := true }
        { activeModules := ["quality-favourites"], enableCalls := [], disableCalls := [],
          errors := [] }).activeModules = ["quality-favourites"] ∧
    (disableModule { id := "quality-favourites", enableThrows := false, disableThrows := true }
        { activeModules := ["quality-favourites"], enableCalls := [], disableCalls := [],
          errors := [] }).errors = ["Failed to disable quality-favourites"] := by
  constructor <;> rfl

/-- C1, amended: if a unit deactivation routine throws while the manager
disables it, the error is caught and logged, the failure does not prevent
processing of the remaining units of the change event or of future
events, but the unit stays in the active set. -/
theorem disableModule_failure_isolated (m : FeatureModule) (s : ManagerState)
    (hthrow : m.disableThrows = true) (hactive : m.id ∈ s.activeModules) :
    (disableModule m s).errors = s.errors ++ ["Failed to disable " ++ m.id] ∧
    (disableModule m s).activeModules = s.activeModules ∧
    (∀ oldStates newStates : List (String × Bool), ∀ rest : List FeatureModule,
      (oldStates.lookup m.id).getD false = true →
      (newStates.lookup m.id).getD false = false →
      handleChange oldStates newStates (m :: rest) s =
        handleChange oldStates newStates rest (disableModule m s)) := by
  refine ⟨?_, ?_, ?_⟩
  · simp [disableModule, hactive, hthrow]
  · simp [disableModule, hactive, hthrow]
  · intro oldStates newStates rest h1 h2
    simp [handleChange, changeStep, h1, h2]

/-- C1, witness at a concrete throwing unit. -/
theorem disableModule_failure_isolated_witness :
    (disableModule { id := "card-favourites", enableThrows := false, disableThrows := true }
        { activeModules := ["card-favourites"], enableCalls := [], disableCalls := [],
          errors := [] }).errors = ["Failed to disable card-favourites"] ∧
    (disableModule { id := "card-favourites", enableThrows := false, disableThrows := true }
        { activeModules := ["card-favourites"], enableCalls := [], disableCalls := [],
          errors := [] }).activeModules = ["card-favourites"] := by
  have h := disableModule_failure_isolated
    { id := "card-favourites", enableThrows := false, disableThrows := true }
    { activeModules := ["card-favourites"], enableCalls := [], disableCalls := [],
      errors := [] } rfl (by decide)
  exact ⟨by simpa using h.1, h.2.1⟩

/-- C2, counterexample: when the enabled state key is unset but the card
preference key has a persisted value, initializeStorage overwrites that
value with the empty default. -/
theorem initializeStorage_overwrites_cex :
    (initializeStorage
          { moduleStates := none,
            cardPreferences := some [("c1", CardPref.favourite)],
            favouriteQualities := none }).cardPreferences = some [] ∧
    some [("c1", CardPref.favourite)] ≠ (some [] : Option (List (String × CardPref))) := by
  constructor
  · rfl
  · decide

/-- C2, amended: when the enabled state key is entirely unset,
initializeStorage seeds it with every registered module id mapped to
false and sets the other two keys to their empty defaults, overwriting
any values they held; when the enabled state key is set, it changes
nothing; repeated invocation is idempotent. -/
theorem initializeStorage_seeds_and_idempotent (s : Storage) :
    (s.moduleStates = none →
      initializeStorage s =
        { moduleStates := some (MODULE_REGISTRY.map fun m => (m.id, false)),
          cardPreferences := some [], favouriteQualities := some [] } ∧
      ∀ m, m ∈ MODULE_REGISTRY →
        ((initializeStorage s).moduleStates.getD []).lookup m.id = some false) ∧
    (∀ v, s.moduleStates = some v → initializeStorage s = s) ∧
    initializeStorage (initializeStorage s) = initializeStorage s := by
  refine ⟨?_, ?_, ?_⟩
  · intro h
    constructor
    · simp [initializeStorage, h]
    · intro m hm
      simp only [initializeStorage, h]
      simp only [List.mem_cons, MODULE_REGISTRY, List.not_mem_nil, or_false] at hm
      rcases hm with h1 | h1 | h1 <;> subst h1 <;> rfl
  · intro v h
    simp [initializeStorage, h]
  · rcases hs : s.moduleStates with _ | v
    · simp [initializeStorage, hs]
    · simp [initializeStorage, hs]

/-- C2, witness at empty storage and at a storage with a set enabled
state key. -/
theorem initializeStorage_seeds_witness :
    initializeStorage
        { moduleStates := none, cardPreferences := none, favouriteQualities := none } =
      { moduleStates := some (MODULE_REGISTRY.map fun m => (m.id, false)),
        cardPreferences := some [], favouriteQualities := some [] } ∧
    initializeStorage
        { moduleStates := some [("bazaar-total", true)], cardPreferences := none,
          favouriteQualities := none } =
      { moduleStates := some [("bazaar-total", true)], cardPreferences := none,
        favouriteQualities := none } := by
  constructor
  · exact ((initializeStorage_seeds_and_idempotent _).1 rfl).1
  · exact (initializeStorage_seeds_and_idempotent _).2.1 [("bazaar-total", true)] rfl

/-- C3, counterexample: on a pinned list holding the dragged id twice,
the reorder removes both copies and reinserts only one, so the length
shrinks even though moved and target id are both present and distinct. -/
theorem reorderFavourite_duplicate_cex :
    ("a" : String) ∈ ["a", "a", "b"] ∧ ("b" : String) ∈ ["a", "a", "b"] ∧
    ("b" : String) ≠ "a" ∧
    (reorderFavourite ["a", "a", "b"] "a" "b" true).length ≠
      (["a", "a", "b"] : List String).length := by
  decide

/-- C3, amended: for every pinned list WITHOUT duplicate ids, the
invariant the unit maintains, dragging an id of the list onto a distinct
target id of the list is a permutation, with the same element set and the
same length; in particular dragging c above a in the list a, b, c yields
c, a, b. -/
theorem reorderFavourite_perm_of_nodup (favs : List String)
    (movedId targetId : String) (b : Bool) (hnd : favs.Nodup)
    (hm : movedId ∈ favs) (ht : targetId ∈ favs) (hne : targetId ≠ movedId) :
    (reorderFavourite favs movedId targetId b).length = favs.length ∧
    (∀ x, x ∈ reorderFavourite favs movedId targetId b ↔ x ∈ favs) ∧
    reorderFavourite ["a", "b", "c"] "c" "a" true = ["c", "a", "b"] := by
  have hp := reorder_perm favs movedId targetId b hnd hm ht hne
  exact ⟨hp.length_eq, fun x => hp.mem_iff, by decide⟩

/-- C3, witness at a concrete duplicate free list. -/
theorem reorderFavourite_perm_witness :
    (reorderFavourite ["a", "b", "c"] "a" "b" false).length =
      (["a", "b", "c"] : List String).length ∧
    (("c" : String) ∈ reorderFavourite ["a", "b", "c"] "a" "b" false ↔
      ("c" : String) ∈ ["a", "b", "c"]) := by
  have h := reorderFavourite_perm_of_nodup ["a", "b", "c"] "a" "b" false
    (by decide) (by decide) (by decide) (by decide)
  exact ⟨h.1, h.2.1 "c"⟩

/-- C4: enabling a unit already in the active set is a no-op, so its
activation routine runs at most once in total, and disabling a unit not
in the active set is a no-op that invokes nothing. -/
theorem enable_disable_idempotent (m : FeatureModule) (s : ManagerState) :
    (m.id ∈ s.activeModules → enableModule m s = s) ∧
    (m.id ∉ s.activeModules → disableModule m s = s) ∧
    (m.enableThrows = false →
      enableModule m (enableModule m s) = enableModule m s ∧
      (enableModule m (enableModule m s)).enableCalls.count m.id ≤
        s.enableCalls.count m.id + 1) := by
  refine ⟨?_, ?_, ?_⟩
  · intro h
    simp [enableModule, h]
  · intro h
    simp [disableModule, h]
  · intro hth
    by_cases hmem : m.id ∈ s.activeModules
    · simp [enableModule, hmem]
    · have h1 : enableModule m s =
          { s with enableCalls := s.enableCalls ++ [m.id],
                   activeModules := s.activeModules ++ [m.id] } := by
        simp [enableModule, hmem, hth]
      have h2 : m.id ∈ (enableModule m s).activeModules := by
        rw [h1]; simp
      have h3 : enableModule m (enableModule m s) = enableModule m s := by
        conv_lhs => rw [enableModule]
        rw [if_pos h2]
      refine ⟨h3, ?_⟩
      rw [h3, h1]
      simp [List.count_append]

/-- C4, witness at a concrete registered unit, one instance per no-op. -/
theorem enable_disable_idempotent_witness :
    enableModule { id := "bazaar-total", enableThrows := false, disableThrows := false }
        { activeModules := ["bazaar-total"], enableCalls := ["bazaar-total"],
          disableCalls := [], errors := [] } =
      { activeModules := ["bazaar-total"], enableCalls := ["bazaar-total"],
        disableCalls := [], errors := [] } ∧
    disableModule { id := "card-favourites", enableThrows := false, disableThrows := false }
        { activeModules := [], enableCalls := [], disableCalls := [], errors := [] } =
      { activeModules := [], enableCalls := [], disableCalls := [], errors := [] } ∧
    (enableModule { id := "quality-favourites", enableThrows := false, disableThrows := false }
        (enableModule { id := "quality-favourites", enableThrows := false, disableThrows := false }
          { activeModules := [], enableCalls := [], disableCalls := [],
            errors := [] })).enableCalls.count "quality-favourites" ≤ 1 := by
  refine ⟨?_, ?_, ?_⟩
  · exact (enable_disable_idempotent _ _).1 (by decide)
  · exact (enable_disable_idempotent _ _).2.1 (by decide)
  · have h := (enable_disable_idempotent
      { id := "quality-favourites", enableThrows := false, disableThrows := false }
      { activeModules := [], enableCalls := [], disableCalls := [], errors := [] }).2.2 rfl
    simpa using h.2

/-- C5, counterexample: a card whose persisted preference is avoid does
not come back to avoid after two favourite toggles; the first switches to
favourite and the second clears to none. -/
theorem toggleCardPref_double_cex :
    cPrefs0 "c1" = some CardPref.avoid ∧
    toggleCardPref (toggleCardPref cPrefs0 "c1" CardPref.favourite) "c1"
      CardPref.favourite "c1" = none := by
  constructor <;> rfl

/-- C5, amended: toggling a tag twice returns the persisted preference to
its original state whenever that original state is none or the toggled
tag itself; clicking the currently active tag clears the preference to
none; clicking the other tag switches directly to it; when the original
preference is the opposite tag, the second toggle therefore ends at none,
not at the original tag. -/
theorem toggleCardPref_transitions (prefs : String → Option CardPref)
    (cardId : String) (pref : CardPref) :
    (prefs cardId = none ∨ prefs cardId = some pref →
      toggleCardPref (toggleCardPref prefs cardId pref) cardId pref cardId =
        prefs cardId) ∧
    (prefs cardId = some pref → toggleCardPref prefs cardId pref cardId = none) ∧
    (∀ other, other ≠ pref → prefs cardId = some other →
      toggleCardPref prefs cardId pref cardId = some pref) ∧
    (prefs cardId = none → toggleCardPref prefs cardId pref cardId = some pref) := by
  refine ⟨?_, ?_, ?_, ?_⟩
  · rintro (h | h) <;> simp [toggleCardPref, setCardPref, h]
  · intro h
    simp [toggleCardPref, setCardPref, h]
  · intro other hne h
    simp only [toggleCardPref, setCardPref, h, Option.some.injEq, if_pos rfl]
    rw [if_neg (fun hc => hne hc)]
    simp
  · intro h
    simp [toggleCardPref, setCardPref, h]

/-- C5, witness at a concrete store: clearing the active tag, switching
to the other tag, and a double toggle of the active tag. -/
theorem toggleCardPref_transitions_witness :
    toggleCardPref cPrefs0 "c1" CardPref.avoid "c1" = none ∧
    toggleCardPref cPrefs0 "c1" CardPref.favourite "c1" = some CardPref.favourite ∧
    toggleCardPref (toggleCardPref cPrefs0 "c1" CardPref.avoid) "c1"
      CardPref.avoid "c1" = some CardPref.avoid := by
  refine ⟨?_, ?_, ?_⟩
  · exact (toggleCardPref_transitions cPrefs0 "c1" CardPref.avoid).2.1 rfl
  · exact (toggleCardPref_transitions cPrefs0 "c1" CardPref.favourite).2.2.1
      CardPref.avoid (by decide) rfl
  · exact ((toggleCardPref_transitions cPrefs0 "c1" CardPref.avoid).1 (Or.inr rfl)).trans rfl

/-- C6: a drop with no drag in progress, a drop onto the dragged element
itself, and a drop whose target id is no longer in the pinned list all
leave the list unchanged. -/
theorem drop_noop (favs : List String) (qualityId : String) (b : Bool) :
    dropOnFavourite none qualityId b favs = favs ∧
    dropOnFavourite (some qualityId) qualityId b favs = favs ∧
    (∀ d, qualityId ∉ favs → dropOnFavourite (some d) qualityId b favs = favs) := by
  refine ⟨rfl, by simp [dropOnFavourite], ?_⟩
  intro d h
  by_cases hd : d = qualityId
  · simp [dropOnFavourite, hd]
  · have hnf : qualityId ∉ favs.filter (fun id => id != d) :=
      fun hc => h (List.mem_of_mem_filter hc)
    have hr : reorderFavourite favs d qualityId b = favs := by
      simp only [reorderFavourite]
      rw [if_neg hnf]
    simp [dropOnFavourite, hd, hr]

/-- C6, witness at a concrete list and ids. -/
theorem drop_noop_witness :
    dropOnFavourite none "a" true ["a", "b"] = ["a", "b"] ∧
    dropOnFavourite (some "a") "a" false ["a", "b"] = ["a", "b"] ∧
    dropOnFavourite (some "a") "z" true ["a", "b"] = ["a", "b"] := by
  refine ⟨(drop_noop ["a", "b"] "a" true).1, (drop_noop ["a", "b"] "a" false).2.1, ?_⟩
  exact (drop_noop ["a", "b"] "z" true).2.2 "a" (by decide)

/-- C7: formatCurrency rounds half up per currency: one two hundredth,
the half cent boundary, renders as 0.01 Echoes, and 49.7 renders as 50
Hinterland Scrip; the integer part carries thousands separators; and at
every half cent boundary the Echoes rendering shows the rounded up cent
count, at every half unit boundary the Scrip rendering shows the rounded
up whole number. -/
theorem formatCurrency_round_half_up :
    formatCurrency (1 / 200) "Echoes" = "0.01 Echoes" ∧
    formatCurrency (497 / 10) "Hinterland Scrip" = "50 Hinterland Scrip" ∧
    formatCurrency (123456 / 100) "Echoes" = "1,234.56 Echoes" ∧
    formatCurrency 1234567 "Hinterland Scrip" = "1,234,567 Hinterland Scrip" ∧
    (∀ n : ℕ, formatCurrency ((2 * (n : ℚ) + 1) / 200) "Echoes" = echoesOfCents (n + 1)) ∧
    (∀ n : ℕ, formatCurrency ((2 * (n : ℚ) + 1) / 2) "Hinterland Scrip" =
      groupDigits (n + 1) ++ " Hinterland Scrip") := by
  refine ⟨?_, ?_, ?_, ?_, ?_, ?_⟩
  · have h : jsRound ((1 / 200 : ℚ) * 100) = 1 := by norm_num [jsRound]
    simp only [formatCurrency, if_pos rfl, h]
    decide
  · have h : jsRound (497 / 10 : ℚ) = 50 := by norm_num [jsRound]
    have hc : ¬ (("Hinterland Scrip" : String) = "Echoes") := by decide
    simp only [formatCurrency, if_neg hc, h]
    decide
  · have h : jsRound ((123456 / 100 : ℚ) * 100) = 123456 := by norm_num [jsRound]
    simp only [formatCurrency, if_pos rfl, h]
    decide
  · have h : jsRound (1234567 : ℚ) = 1234567 := by norm_num [jsRound]
    have hc : ¬ (("Hinterland Scrip" : String) = "Echoes") := by decide
    simp only [formatCurrency, if_neg hc, h]
    decide
  · intro n
    have h : jsRound ((2 * (n : ℚ) + 1) / 200 * 100) = ((n + 1 : ℕ) : ℤ) := by
      have h2 : (2 * (n : ℚ) + 1) / 200 * 100 + 1 / 2 = ((n + 1 : ℕ) : ℚ) := by
        push_cast
        ring
      rw [jsRound, h2, Int.floor_natCast]
    have h3 : ¬ (((n + 1 : ℕ) : ℤ) < 0) := by omega
    simp only [formatCurrency, if_pos rfl, h, Int.natAbs_ofNat, echoesOfCents, if_neg h3]
    rfl
  · intro n
    have h : jsRound ((2 * (n : ℚ) + 1) / 2) = ((n + 1 : ℕ) : ℤ) := by
      have h2 : (2 * (n : ℚ) + 1) / 2 + 1 / 2 = ((n + 1 : ℕ) : ℚ) := by
        push_cast
        ring
      rw [jsRound, h2, Int.floor_natCast]
    have h3 : ¬ (((n + 1 : ℕ) : ℤ) < 0) := by omega
    have hc : ¬ (("Hinterland Scrip" : String) = "Echoes") := by decide
    simp only [formatCurrency, if_neg hc, h, Int.natAbs_ofNat, if_neg h3]
    rw [show ("" : String) ++ groupDigits (n + 1) = groupDigits (n + 1) from rfl,
      String.append_assoc]
    rfl

/-- C8: a string with no numeric head after comma stripping and trimming
parses to quantity 0, and a string that does not parse as a decimal
yields price 0; both functions are total, so neither throws. -/
theorem parse_nonnumeric_zero (s : String) :
    (hasLeadingNumber (jsTrim (stripCommas s)) = false → parseQuantity s = 0) ∧
    (parseFloatJs (jsTrim s) = none → parsePrice s = 0) := by
  constructor
  · intro h
    simp only [parseQuantity]
    rw [parseIntTen_eq_none_of_no_number _ h]
    rfl
  · intro h
    simp only [parsePrice]
    rw [h]
    rfl

/-- C8, witness at the concrete non numeric string abc. -/
theorem parse_nonnumeric_zero_witness :
    parseQuantity "abc" = 0 ∧ parsePrice "abc" = 0 := by
  have h := parse_nonnumeric_zero "abc"
  exact ⟨h.1 (by decide), h.2 (by decide)⟩

/-- C9, counterexample: computeTotal over binary64 doubles, as the source
computes it, is not order independent.  Three items of quantity 1 with
the representable prices 2 to the 53, 1 and 1 total 9007199254740992 in
that order, both increments of 1 being absorbed by the tie to even
rounding, but total 9007199254740994 in reversed order, where the two
units add exactly before meeting the large value. -/
theorem computeTotal_order_cex :
    ([itemBig, itemOne, itemOne] : List Item).Perm [itemOne, itemOne, itemBig] ∧
    computeTotal [itemBig, itemOne, itemOne] ≠
      computeTotal [itemOne, itemOne, itemBig] := by
  have hsum1 : (9007199254740992 : ℚ) + 1 = 9007199254740993 := by norm_num
  have t1 : computeTotal [itemBig, itemOne, itemOne] = 9007199254740992 := by
    simp only [computeTotal, List.foldl_cons, List.foldl_nil, itemBig, itemOne,
      one_mul, zero_add, fl_pow53, fl_one]
    rw [hsum1, fl_pow53_add_one, hsum1, fl_pow53_add_one]
  have t2 : computeTotal [itemOne, itemOne, itemBig] = 9007199254740994 := by
    simp only [computeTotal, List.foldl_cons, List.foldl_nil, itemBig, itemOne,
      one_mul, zero_add, fl_pow53, fl_one]
    rw [show (1 : ℚ) + 1 = 2 from by norm_num, fl_two,
      show (2 : ℚ) + 9007199254740992 = 9007199254740994 from by norm_num,
      fl_pow53_add_two]
  constructor
  · exact (List.Perm.swap itemOne itemBig [itemOne]).trans
      ((List.Perm.swap itemOne itemBig []).cons itemOne)
  · rw [t1, t2]
    norm_num

/-- C9, amended: computeTotal of the empty sequence is 0, and a line with
zero quantity or zero price contributes nothing; but computeTotal,
computed in binary64 double arithmetic as the source is, is NOT order
independent in general, reordering can change the rounded total; order
independence under permutation holds for the idealized exact arithmetic
total computeTotalExact. -/
theorem computeTotal_float_props :
    computeTotal [] = 0 ∧
    (∀ (i : Item) (l : List Item), i.quantity = 0 ∨ i.price = 0 →
      computeTotal (i :: l) = computeTotal l) ∧
    (∀ l₁ l₂ : List Item, l₁.Perm l₂ → computeTotalExact l₁ = computeTotalExact l₂) := by
  refine ⟨rfl, ?_, ?_⟩
  · intro i l h
    have hz : i.quantity * i.price = 0 := by
      rcases h with h | h <;> simp [h]
    simp only [computeTotal, List.foldl_cons, hz, fl_zero, add_zero]
  · intro l₁ l₂ h
    rw [computeTotalExact_eq_sum, computeTotalExact_eq_sum]
    exact (h.map _).sum_eq

/-- C9, witness at a concrete zero quantity line and a concrete two
element swap of the exact total. -/
theorem computeTotal_float_props_witness :
    computeTotal [{ quantity := 0, price := 5 }, { quantity := 2, price := 3 }] =
      computeTotal [{ quantity := 2, price := 3 }] ∧
    computeTotalExact [{ quantity := 1, price := 2 }, { quantity := 3, price := 4 }] =
      computeTotalExact [{ quantity := 3, price := 4 }, { quantity := 1, price := 2 }] := by
  constructor
  · exact computeTotal_float_props.2.1 ({ quantity := 0, price := 5 } : Item)
      [{ quantity := 2, price := 3 }] (Or.inl rfl)
  · exact computeTotal_float_props.2.2 _ _
      (List.Perm.swap ({ quantity := 3, price := 4 } : Item)
        ({ quantity := 1, price := 2 } : Item) [])

/-- C10: getAllModuleStates returns exactly the registry ids as keys, in
registry order; every registered id maps to its stored boolean, or false
when absent; and an id absent from the registry is absent from the
result, even when it is present in storage. -/
theorem getAllModuleStates_keys (states : List (String × Bool)) :
    (getAllModuleStates (some states)).map Prod.fst = MODULE_REGISTRY.map ModuleInfo.id ∧
    (∀ m, m ∈ MODULE_REGISTRY →
      (getAllModuleStates (some states)).lookup m.id =
        some ((states.lookup m.id).getD false)) ∧
    (∀ id, id ∉ MODULE_REGISTRY.map ModuleInfo.id →
      (getAllModuleStates (some states)).lookup id = none) := by
  refine ⟨rfl, ?_, ?_⟩
  · intro m hm
    simp only [List.mem_cons, MODULE_REGISTRY, List.not_mem_nil, or_false] at hm
    rcases hm with h | h | h <;> subst h <;> rfl
  · intro id hid
    simp only [List.map, MODULE_REGISTRY, List.mem_cons, List.not_mem_nil, or_false,
      not_or] at hid
    obtain ⟨h1, h2, h3⟩ := hid
    simp [getAllModuleStates, MODULE_REGISTRY, List.lookup, beq_false_of_ne h1,
      beq_false_of_ne h2, beq_false_of_ne h3]

/-- C10, witness at a concrete stored map holding one registered id and
one foreign id. -/
theorem getAllModuleStates_keys_witness :
    (getAllModuleStates (some [("bazaar-total", true), ("stale-module", true)])).lookup
        "bazaar-total" = some true ∧
    (getAllModuleStates (some [("bazaar-total", true), ("stale-module", true)])).lookup
        "card-favourites" = some false ∧
    (getAllModuleStates (some [("bazaar-total", true), ("stale-module", true)])).lookup
        "stale-module" = none := by
  have h := getAllModuleStates_keys [("bazaar-total", true), ("stale-module", true)]
  refine ⟨?_, ?_, ?_⟩
  · exact Eq.trans
      (h.2.1
        ⟨"bazaar-total", "Bazaar Total Value",
          "Shows the total value of your items when selling at the Bazaar."⟩
        (by decide))
      (by rfl)
  · exact Eq.trans
      (h.2.1
        ⟨"card-favourites", "Opportunity Card Favourites",
          "Mark opportunity cards as favourites or ones to avoid. Favourites are highlighted; avoided cards are dimmed."⟩
        (by decide))
      (by rfl)
  · exact h.2.2 "stale-module" (by decide)

end FallenTweaks
